import Mathlib

/-!
Verification of the eva-mcp Node MCP server core against its design notes.

The development shallowly embeds the framed JSON-RPC transport
(src/util/jsonrpc.ts), the registries (src/runtime/registry.ts), the
filesystem sandbox path resolution (src/util/sandbox.ts) and the server
dispatch loop (src/server.ts).

Bytes are modelled as natural numbers; the input stream after the close
event is modelled as the list of bytes that remain buffered, or - for the
chunk-sensitive transport lemmas - as the list of chunks in which those
bytes were delivered.  External platform functions (JSON.parse, the clock)
are parameters of the embedding.
-/

set_option maxRecDepth 100000
set_option exponentiation.threshold 1100

namespace EvaMCP

/-- A byte of the input stream. -/
abbrev Byte := Nat

/-- ASCII bytes of a string, for concrete frames in examples. -/
def asciiBytes (s : String) : List Byte := s.data.map Char.toNat

/-- Index of the first newline byte (0x0A), as scanned by readLine. -/
def findNL : List Byte → Option Nat
  | [] => none
  | b :: bs => if b = 10 then some 0 else (findNL bs).map (· + 1)

/-- JS String.prototype.trim whitespace, restricted to the ASCII bytes
that can occur in a header line. -/
def isWsByte (b : Byte) : Bool :=
  b = 32 || b = 9 || b = 10 || b = 13 || b = 11 || b = 12

/-- ASCII lowercase conversion, as in toLowerCase on header names. -/
def toLowerByte (b : Byte) : Byte :=
  if 65 ≤ b ∧ b ≤ 90 then b + 32 else b

def trimBytes (bs : List Byte) : List Byte :=
  ((bs.dropWhile isWsByte).reverse.dropWhile isWsByte).reverse

def lowerBytes (bs : List Byte) : List Byte := bs.map toLowerByte

def isDigitByte (b : Byte) : Bool := 48 ≤ b && b ≤ 57

/-- Numeric value of a run of ASCII digit bytes. -/
def digitsVal (ds : List Byte) : Nat := ds.foldl (fun a d => a * 10 + (d - 48)) 0

/-- JS parseInt(s, 10): skip whitespace, optional sign, then a maximal
run of decimal digits; NaN (none) when no digit is found, trailing
garbage ignored.  The exact mathematical value is kept here; parseInt
itself returns a double, which saturates to Infinity at the overflow
threshold - the Number.isFinite guard on the result is jsIsFinite
below. -/
def parseIntDec (bs : List Byte) : Option Int :=
  let v1 := bs.dropWhile isWsByte
  let signAndRest : Int × List Byte :=
    match v1 with
    | 43 :: r => (1, r)
    | 45 :: r => (-1, r)
    | _ => (1, v1)
  let digs := signAndRest.2.takeWhile isDigitByte
  if digs = [] then none
  else some (signAndRest.1 * (digitsVal digs : Int))

/-- Number.isFinite on the double that parseInt returns for the exact
integer v: a magnitude at or above 2 ^ 1024 - 2 ^ 970 (the IEEE 754
round-to-nearest overflow threshold, reached by a 309-digit value)
rounds to Infinity, every smaller magnitude stays finite. -/
def jsIsFinite (v : Int) : Bool := v.natAbs < 2 ^ 1024 - 2 ^ 970

/-- The header key bytes of Content-Length after trim and toLowerCase. -/
def clKey : List Byte := asciiBytes "content-length"

/-- Header table as built by readHeaders: assignment overwrites the
previous value of the same key. -/
abbrev Headers := List (List Byte × List Byte)

def headerSet (hs : Headers) (k v : List Byte) : Headers :=
  if hs.any (fun kv => kv.1 = k) then
    hs.map (fun kv => if kv.1 = k then (k, v) else kv)
  else
    hs ++ [(k, v)]

def headerGet (hs : Headers) (k : List Byte) : Option (List Byte) :=
  (hs.find? (fun kv => kv.1 = k)).map (fun kv => kv.2)

/-- One header line folded into the table: split at the first colon,
trim and lowercase the key, trim the value; a line with no colon is
ignored. -/
def addHeader (hs : Headers) (line : List Byte) : Headers :=
  match line.findIdx? (fun b => b = 58) with
  | none => hs
  | some i =>
      headerSet hs (lowerBytes (trimBytes (line.take i))) (trimBytes (line.drop (i + 1)))

/-- readLine on the flat buffered input: the line up to and including the
first newline, and the bytes pushed back for later reads.  When the
stream has ended and no newline is buffered the promise resolves null
and any accumulated bytes are discarded. -/
def readLine (buf : List Byte) : Option (List Byte × List Byte) :=
  match findNL buf with
  | some i => some (buf.take (i + 1), buf.drop (i + 1))
  | none => none

/-- readHeaders loop body, with explicit fuel (one unit per header line;
each line consumes at least one byte, so buffer length plus one always
suffices). -/
def readHeadersCore : Nat → Headers → List Byte → Option (Headers × List Byte)
  | 0, _, _ => none
  | fuel + 1, hs, buf =>
      match readLine buf with
      | none => none
      | some (line, rest) =>
          if line = [13, 10] then some (hs, rest)
          else readHeadersCore fuel (addHeader hs line) rest

/-- readHeaders: collect header lines until the blank CRLF line; null
(none) when the stream ends first. -/
def readHeaders (buf : List Byte) : Option (Headers × List Byte) :=
  readHeadersCore (buf.length + 1) [] buf

/-- JSON values as decoded by JSON.parse; numbers restricted to the
integers that this server exchanges. -/
inductive Json where
  | null : Json
  | bool (b : Bool) : Json
  | num (n : Int) : Json
  | str (s : String) : Json
  | arr (xs : List Json) : Json
  | obj (kvs : List (String × Json)) : Json

/-- JSON-RPC request identifier: a number or a string. -/
abbrev RpcId := Sum Int String

/-- A decoded JSON-RPC request; id none covers both an absent id and an
explicit null. -/
structure Request where
  id : Option RpcId
  method : String
  params : Option Json

/-- JSON-RPC error record. -/
structure RpcErr where
  code : Int
  message : String
  data : Option Json

/-- A response as written by the server: an id and either a result or an
error record. -/
structure Response where
  id : Option RpcId
  body : Except RpcErr Json

/-- Property lookup on a decoded JSON value, as JS destructuring does on
a parsed params object; non-objects yield undefined for every key. -/
def objGet (j : Json) (k : String) : Option Json :=
  match j with
  | .obj kvs => (kvs.find? (fun kv => kv.1 = k)).map (fun kv => kv.2)
  | _ => none

/-- JS truthiness of a decoded JSON value. -/
def jsTruthy (j : Json) : Bool :=
  match j with
  | .null => false
  | .bool b => b
  | .num n => n ≠ 0
  | .str s => s ≠ ""
  | .arr _ => true
  | .obj _ => true

def jsTruthyOpt (j : Option Json) : Bool :=
  match j with
  | some v => jsTruthy v
  | none => false

mutual

/-- JS String() coercion of a decoded JSON value; array elements are
joined with commas, with null elements rendered empty. -/
def jsToString (j : Json) : String :=
  match j with
  | .null => "null"
  | .bool b => if b then "true" else "false"
  | .num n => toString n
  | .str s => s
  | .arr xs => String.intercalate "," (jsToStringList xs)
  | .obj _ => "[object Object]"

def jsToStringList (xs : List Json) : List String :=
  match xs with
  | [] => []
  | .null :: rest => "" :: jsToStringList rest
  | x :: rest => jsToString x :: jsToStringList rest

end

/-- JS String() coercion where the value may be undefined. -/
def jsToStringOpt (j : Option Json) : String :=
  match j with
  | some v => jsToString v
  | none => "undefined"

/-- The result of one call to FramedJSONRPC.read: a request, the
undefined result (returned both at end of stream and when a frame is
skipped for a bad Content-Length), or a rejection that escapes the
caller. -/
inductive ReadOut where
  | req (r : Request)
  | undef
  | fatal (e : String)

/-- The synthetic request returned when the body fails to decode as
JSON. -/
def parseSentinel (e : String) : Request :=
  { id := none
    method := "__internal_parse_error__"
    params := some (.obj [("message", .str (if e = "" then "Parse error" else e))]) }

/-- JSON.parse on the body bytes, a platform function: a request or the
decoder error message. -/
abbrev Decode := List Byte → Except String Request

/-- The Content-Length value of a parsed header block: the header must
be present, nonempty (falsiness check on the string) and parse as a
number. -/
def clLen (hs : Headers) : Option Int :=
  match headerGet hs clKey with
  | none => none
  | some v => if v = [] then none else parseIntDec v

/-- FramedJSONRPC.read on the flat buffered input.  Returns the read
outcome and the bytes left for the next read.  A null header block is
end of stream (all remaining bytes were consumed by readLine); a bad
Content-Length - NaN, an Infinity overflow caught by the isFinite
guard, zero or negative - skips the frame without consuming the body
(drainBody reads nothing); a body cut short by the close rejects with
the error message Stream ended. -/
def readF (decode : Decode) (buf : List Byte) : ReadOut × List Byte :=
  match readHeaders buf with
  | none => (.undef, [])
  | some (hs, rest) =>
      match clLen hs with
      | none => (.undef, rest)
      | some l =>
          if jsIsFinite l = false ∨ l ≤ 0 then (.undef, rest)
          else
            let n := l.toNat
            if n ≤ rest.length then
              match decode (rest.take n) with
              | .ok r => (.req r, rest.drop n)
              | .error e => (.req (parseSentinel e), rest.drop n)
            else (.fatal "Stream ended", [])

/-- Insertion into a JS Map: an existing key keeps its position and gets
the new value, a new key is appended. -/
def mapSet {V : Type} (m : List (String × V)) (k : String) (v : V) : List (String × V) :=
  if m.any (fun kv => kv.1 = k) then m.map (fun kv => if kv.1 = k then (k, v) else kv)
  else m ++ [(k, v)]

def mapGet {V : Type} (m : List (String × V)) (k : String) : Option V :=
  (m.find? (fun kv => kv.1 = k)).map (fun kv => kv.2)

structure ToolDef where
  name : String
  description : Option String
  inputSchema : Option Json

/-- A content part of a tool result; the type tag is always text. -/
structure ContentPart where
  text : String

structure ToolResult where
  content : List ContentPart
  isError : Option Bool

/-- A tool handler; a thrown rejection is the error case. -/
abbrev ToolHandler := Option Json → Except String ToolResult

structure ToolRegistry where
  tools : List (String × (ToolDef × ToolHandler))

def ToolRegistry.empty : ToolRegistry := ⟨[]⟩

def ToolRegistry.register (reg : ToolRegistry) (d : ToolDef) (h : ToolHandler) : ToolRegistry :=
  ⟨mapSet reg.tools d.name (d, h)⟩

def ToolRegistry.list (reg : ToolRegistry) : List ToolDef :=
  reg.tools.map (fun kv => kv.2.1)

def ToolRegistry.call (reg : ToolRegistry) (name : String) (args : Option Json) :
    Except String ToolResult :=
  match mapGet reg.tools name with
  | none => .ok { content := [⟨"Tool not found: " ++ name⟩], isError := some true }
  | some dh => dh.2 args

structure ResourceDef where
  uri : String
  name : Option String
  description : Option String
  mimeType : Option String

structure ResourceContent where
  uri : String
  mimeType : Option String
  text : Option String

abbrev ResourceReader := String → Except String ResourceContent

/-- The resource registry keeps an array of definitions (push on every
register) and a Map of readers keyed by URI. -/
structure ResourceRegistry where
  resources : List ResourceDef
  readers : List (String × ResourceReader)

def ResourceRegistry.empty : ResourceRegistry := ⟨[], []⟩

def ResourceRegistry.register (reg : ResourceRegistry) (d : ResourceDef) (r : ResourceReader) :
    ResourceRegistry :=
  ⟨reg.resources ++ [d], mapSet reg.readers d.uri r⟩

def ResourceRegistry.list (reg : ResourceRegistry) : List ResourceDef :=
  reg.resources

def ResourceRegistry.read (reg : ResourceRegistry) (uri : String) :
    Except String ResourceContent :=
  let exact := reg.resources.find? (fun r => r.uri = uri)
  let m :=
    match exact with
    | some r => some r
    | none => reg.resources.find? (fun r => uri.startsWith r.uri)
  match m with
  | none => .error "Resource not found"
  | some r =>
      match mapGet reg.readers r.uri with
      | none => .error "Reader missing"
      | some rd => rd uri

/-! ## Prompt templates -/

def lbrace : Char := Char.ofNat 123

def rbrace : Char := Char.ofNat 125

/-- JS regex word character, as matched by the placeholder pattern. -/
def isWordChar (c : Char) : Bool := c.isAlphanum || c = '_'

/-- A prompt variable value: string, number or boolean. -/
inductive PVal where
  | s (v : String)
  | n (v : Int)
  | b (v : Bool)

def pvalToString : PVal → String
  | .s v => v
  | .n v => toString v
  | .b v => if v then "true" else "false"

abbrev PVars := String → Option PVal

/-- String(vars[k] ?? ""): the coerced value, or empty when absent. -/
def varValue (vars : PVars) (k : String) : String :=
  match vars k with
  | some v => pvalToString v
  | none => ""

/-- Match one placeholder occurrence at the head of the input: two
opening braces, a nonempty maximal run of word characters, two closing
braces.  Because a closing brace is not a word character, this agrees
with the backtracking regex. -/
def tryVar : List Char → Option (String × List Char)
  | c1 :: c2 :: ys =>
      if c1 = lbrace ∧ c2 = lbrace then
        match ys.takeWhile isWordChar, ys.dropWhile isWordChar with
        | [], _ => none
        | w, z1 :: z2 :: rest =>
            if z1 = rbrace ∧ z2 = rbrace then some (String.mk w, rest) else none
        | _, _ => none
      else none
  | _ => none

/-- The global regex replace: scan left to right, substitute each
placeholder match, advance one character on a failed match.  Fueled by
one unit per consumed character. -/
def renderCore (vars : PVars) : Nat → List Char → List Char
  | 0, cs => cs
  | _ + 1, [] => []
  | fuel + 1, c :: rest =>
      match tryVar (c :: rest) with
      | some (k, rest2) => (varValue vars k).data ++ renderCore vars fuel rest2
      | none => c :: renderCore vars fuel rest

/-- renderTemplate of src/runtime/registry.ts. -/
def renderTemplate (tpl : String) (vars : PVars) : String :=
  String.mk (renderCore vars tpl.data.length tpl.data)

structure PromptVarDecl where
  name : String
  description : Option String
  required : Option Bool

structure PromptDef where
  name : String
  description : Option String
  varDecls : Option (List PromptVarDecl)

structure PromptRegistry where
  prompts : List (String × (PromptDef × String))

def PromptRegistry.empty : PromptRegistry := ⟨[]⟩

def PromptRegistry.register (reg : PromptRegistry) (d : PromptDef) (tpl : String) :
    PromptRegistry :=
  ⟨mapSet reg.prompts d.name (d, tpl)⟩

def PromptRegistry.list (reg : PromptRegistry) : List PromptDef :=
  reg.prompts.map (fun kv => kv.2.1)

structure PromptOut where
  name : String
  content : String

def PromptRegistry.get (reg : PromptRegistry) (name : String) (vars : PVars) :
    Except String PromptOut :=
  match mapGet reg.prompts name with
  | none => .error "Prompt not found"
  | some dt => .ok { name := name, content := renderTemplate dt.2 vars }

/-! ## Sandbox path resolution (src/util/sandbox.ts) -/

/-- JS s.startsWith(pre), on the character lists. -/
def strStartsWith (s pre : String) : Bool :=
  pre.data.isPrefixOf s.data

/-- JS s.split("/"), on the character list. -/
def splitSlash : List Char → List (List Char)
  | [] => [[]]
  | c :: cs =>
      let r := splitSlash cs
      if c = '/' then [] :: r
      else
        match r with
        | [] => [[c]]
        | x :: xs => (c :: x) :: xs

def joinWith (s : String) : List String → String
  | [] => ""
  | [x] => x
  | x :: xs => x ++ s ++ joinWith s xs

/-- One step of POSIX path normalization: empty and dot segments vanish,
dot-dot pops the previous segment (and is dropped at the root). -/
def segStep (stack : List String) (s : String) : List String :=
  if s = "" ∨ s = "." then stack
  else if s = ".." then stack.drop 1
  else s :: stack

/-- node path.resolve for an absolute base on a POSIX platform. -/
def posixResolve (base p : String) : String :=
  let s := if strStartsWith p "/" then p else base ++ "/" ++ p
  let stack := ((splitSlash s.data).map String.mk).foldl segStep []
  "/" ++ joinWith "/" stack.reverse

/-- The platform path separator. -/
def sep : String := "/"

/-- safeResolve of createSandbox: resolve against the root, then require
the result to be the root itself or to extend it past a separator. -/
def safeResolve (base p : String) : Except String String :=
  let abs := posixResolve base p
  if ¬ strStartsWith abs (base ++ sep) ∧ abs ≠ base then
    .error "Path outside workspace"
  else
    .ok abs

/-! ## Server dispatch and loop (src/server.ts) -/

def optField (k : String) (v : Option Json) : List (String × Json) :=
  match v with
  | some j => [(k, j)]
  | none => []

def contentPartToJson (c : ContentPart) : Json :=
  .obj [("type", .str "text"), ("text", .str c.text)]

/-- JSON.stringify of a tool result; an undefined isError flag is
omitted. -/
def toolResultToJson (tr : ToolResult) : Json :=
  .obj ([("content", .arr (tr.content.map contentPartToJson))] ++
    optField "isError" (tr.isError.map Json.bool))

def toolDefToJson (d : ToolDef) : Json :=
  .obj ([("name", .str d.name)] ++
    optField "description" (d.description.map Json.str) ++
    optField "inputSchema" d.inputSchema)

def resourceDefToJson (d : ResourceDef) : Json :=
  .obj ([("uri", .str d.uri)] ++
    optField "name" (d.name.map Json.str) ++
    optField "description" (d.description.map Json.str) ++
    optField "mimeType" (d.mimeType.map Json.str))

def resourceContentToJson (rc : ResourceContent) : Json :=
  .obj ([("uri", .str rc.uri)] ++
    optField "mimeType" (rc.mimeType.map Json.str) ++
    optField "text" (rc.text.map Json.str))

def promptVarDeclToJson (v : PromptVarDecl) : Json :=
  .obj ([("name", .str v.name)] ++
    optField "description" (v.description.map Json.str) ++
    optField "required" (v.required.map Json.bool))

def promptDefToJson (d : PromptDef) : Json :=
  .obj ([("name", .str d.name)] ++
    optField "description" (d.description.map Json.str) ++
    optField "variables" ((d.varDecls.map (fun vs => Json.arr (vs.map promptVarDeclToJson)))))

/-- The mutable state owned by MCPServer: the shutdown flag, the three
registries and the server identity reported by initialize. -/
structure SState where
  shuttingDown : Bool
  tools : ToolRegistry
  resources : ResourceRegistry
  prompts : PromptRegistry
  serverName : String
  serverVersion : String

def initializeResult (st : SState) : Json :=
  .obj [("protocolVersion", .str "2024-11-01"),
    ("serverInfo", .obj [("name", .str st.serverName), ("version", .str st.serverVersion)]),
    ("capabilities", .obj [
      ("tools", .obj [("list", .bool true), ("call", .bool true)]),
      ("resources", .obj [("list", .bool true), ("read", .bool true),
        ("supportedSchemes", .arr [.str "file"])]),
      ("prompts", .obj [("list", .bool true), ("get", .bool true)])])]

def okResp (id : Option RpcId) (j : Json) : Response :=
  { id := id, body := .ok j }

/-- sendError: the data property is spread in only when truthy. -/
def sendError (id : Option RpcId) (code : Int) (msg : String) (data : Option Json) : Response :=
  { id := id
    body := .error
      { code := code
        message := msg
        data :=
          match data with
          | some d => if jsTruthy d then some d else none
          | none => none } }

/-- e?.message || "Server error": an empty message falls back. -/
def nonEmptyMsg (e : String) : String :=
  if e = "" then "Server error" else e

/-- (req.params as any) ?? \x7b\x7d: absent and null both become the
empty object. -/
def paramsObj (req : Request) : Json :=
  match req.params with
  | none => .obj []
  | some Json.null => .obj []
  | some j => j

/-- The variables record passed to the prompt renderer, built from the
decoded variables parameter; a null entry coerces like an absent one. -/
def jsonVars (vj : Option Json) : PVars := fun k =>
  let v : Json :=
    match vj with
    | none => .obj []
    | some Json.null => .obj []
    | some j => j
  match objGet v k with
  | none => none
  | some Json.null => none
  | some (Json.str s) => some (.s s)
  | some (Json.num n) => some (.n n)
  | some (Json.bool b) => some (.b b)
  | some other => some (.s (jsToString other))

/-- MCPServer.handle: dispatch one request, returning the new state and
the responses written (always exactly one).  Handler failures are
caught and converted to code -32000 responses. -/
def handle (st : SState) (req : Request) : SState × List Response :=
  let id := req.id
  match req.method with
  | "initialize" => (st, [okResp id (initializeResult st)])
  | "shutdown" => ({ st with shuttingDown := true }, [okResp id .null])
  | "tools/list" =>
      (st, [okResp id (.obj [("tools", .arr (st.tools.list.map toolDefToJson))])])
  | "tools/call" =>
      let p := paramsObj req
      let nm := jsToStringOpt (objGet p "name")
      let args := objGet p "arguments"
      match st.tools.call nm args with
      | .ok tr => (st, [okResp id (toolResultToJson tr)])
      | .error e => (st, [sendError id (-32000) (nonEmptyMsg e) none])
  | "resources/list" =>
      (st, [okResp id (.obj [("resources", .arr (st.resources.list.map resourceDefToJson))])])
  | "resources/read" =>
      let p := paramsObj req
      let uriJ := objGet p "uri"
      if jsTruthyOpt uriJ = false then (st, [sendError id (-32000) "uri required" none])
      else
        match st.resources.read (jsToStringOpt uriJ) with
        | .ok rc => (st, [okResp id (resourceContentToJson rc)])
        | .error e => (st, [sendError id (-32000) (nonEmptyMsg e) none])
  | "prompts/list" =>
      (st, [okResp id (.obj [("prompts", .arr (st.prompts.list.map promptDefToJson))])])
  | "prompts/get" =>
      let p := paramsObj req
      let nameJ := objGet p "name"
      if jsTruthyOpt nameJ = false then (st, [sendError id (-32000) "name required" none])
      else
        match st.prompts.get (jsToStringOpt nameJ) (jsonVars (objGet p "variables")) with
        | .ok pr =>
            (st, [okResp id (.obj [("prompt", .obj [("name", .str pr.name),
              ("messages", .arr [.obj [("role", .str "system"),
                ("content", .str pr.content)]])])])])
        | .error e => (st, [sendError id (-32000) (nonEmptyMsg e) none])
  | m => (st, [sendError id (-32601) "Method not found" (some (.obj [("method", .str m)]))])

/-- How MCPServer.run ends: the loop breaks (end of stream, a skipped
frame, or shutdown) or a rejection escapes it. -/
inductive RunExit where
  | normal
  | fatal (e : String)

/-- MCPServer.run, fueled by one unit per processed frame; a frame
always consumes bytes so buffer length plus one suffices. -/
def runCore (decode : Decode) : Nat → List Byte → SState → List Response × RunExit
  | 0, _, _ => ([], .fatal "Stream ended")
  | fuel + 1, buf, st =>
      match readF decode buf with
      | (.fatal e, _) => ([], .fatal e)
      | (.undef, _) => ([], .normal)
      | (.req r, rest) =>
          if r.method = "__internal_parse_error__" then
            let resp := sendError none (-32700) "Parse error" r.params
            let t := runCore decode fuel rest st
            (resp :: t.1, t.2)
          else
            let h := handle st r
            if h.1.shuttingDown then (h.2, .normal)
            else
              let t := runCore decode fuel rest h.1
              (h.2 ++ t.1, t.2)

/-- MCPServer.run on the closed input with the given buffered bytes. -/
def run (decode : Decode) (buf : List Byte) (st : SState) : List Response × RunExit :=
  runCore decode (buf.length + 1) buf st

/-! ## Transport lemmas -/

/-- EvaMCP read on the empty closed stream reports end of stream. -/
theorem readF_empty (decode : Decode) : readF decode [] = (.undef, []) := rfl

/-- A frame in the shape the writer emits, as used by the test
harness. -/
def mkFrame (body : String) : List Byte :=
  asciiBytes ("Content-Length: " ++ toString (asciiBytes body).length ++ "\r\n\r\n") ++
    asciiBytes body

/-- C2: sandbox path resolution either yields the workspace root, or a
path extending the root past the separator, or fails with the
path-outside-workspace error; any input whose resolved form escapes the
root fails, the check being on the resolved path. -/
theorem sandbox_resolve_containment :
    (∀ (base p abs : String), safeResolve base p = .ok abs →
        abs = base ∨ strStartsWith abs (base ++ sep) = true) ∧
    (∀ (base p : String),
        strStartsWith (posixResolve base p) (base ++ sep) = false →
        posixResolve base p ≠ base →
        safeResolve base p = .error "Path outside workspace") := by
  constructor
  · intro base p abs h
    unfold safeResolve at h
    by_cases hc : ¬ strStartsWith (posixResolve base p) (base ++ sep) ∧
        posixResolve base p ≠ base
    · rw [if_pos hc] at h
      exact absurd h (by simp)
    · rw [if_neg hc] at h
      simp only [Except.ok.injEq] at h
      subst h
      rw [not_and_or] at hc
      rcases hc with h1 | h2
      · right; simpa using h1
      · left; simpa using h2
  · intro base p h1 h2
    unfold safeResolve
    rw [if_pos ⟨by simp [h1], h2⟩]

/-- Witness for C2: an escaping dot-dot path fails even though the
lexical concatenation begins with the root, and a contained path
resolves inside the root. -/
theorem sandbox_resolve_containment_witness :
    safeResolve "/ws" "../ws2/x" = .error "Path outside workspace" ∧
    strStartsWith ("/ws" ++ sep ++ "../ws2/x") ("/ws" ++ sep) = true ∧
    safeResolve "/ws" "a/../b/./c.txt" = .ok "/ws/b/c.txt" :=
  ⟨sandbox_resolve_containment.2 "/ws" "../ws2/x" (by decide) (by decide),
    by decide, rfl⟩

/-! ## Dispatch lemmas -/

/-- Every response handle writes carries the identifier of the request
it answers (null when the request had none). -/
theorem handle_resp_id (st : SState) (req : Request) :
    ∀ resp ∈ (handle st req).2, resp.id = req.id := by
  intro resp h
  unfold handle at h
  repeat' split at h <;> simp_all [okResp, sendError]

/-- handle writes exactly one response for every request. -/
theorem handle_resp_len (st : SState) (req : Request) :
    (handle st req).2.length = 1 := by
  unfold handle
  split
  all_goals try dsimp only
  all_goals repeat' split
  all_goals rfl

/-- The default server state: fresh registries and the stock identity. -/
def st0 : SState := ⟨false, .empty, .empty, .empty, "eva-mcp", "0.1.0"⟩

/-- A request with no identifier, as a notification would arrive. -/
def reqNotif : Request := ⟨none, "initialize", none⟩

def decNotif : Decode := fun b =>
  if b = asciiBytes "9" then .ok reqNotif else .error "Unexpected token"

/-- Counterexample for C4: a frame carrying a request without an
identifier is answered: the server writes one response, with identifier
null, instead of staying silent. -/
theorem notification_counterexample :
    (run decNotif (mkFrame "9") st0).1.length = 1 ∧
    (run decNotif (mkFrame "9") st0).1.map Response.id = [none] := by
  constructor
  · decide
  · decide

/-- C4 as amended: the server answers every request, including those
with no identifier; the answer to an id-less request carries identifier
null. -/
theorem notifications_are_answered (st : SState) (req : Request)
    (hid : req.id = none) :
    (handle st req).2.length = 1 ∧ ∀ resp ∈ (handle st req).2, resp.id = none :=
  ⟨handle_resp_len st req,
    fun resp h => by rw [handle_resp_id st req resp h, hid]⟩

/-- Witness for the amended C4 at the concrete id-less initialize. -/
theorem notifications_are_answered_witness :
    (handle st0 reqNotif).2.length = 1 ∧
    ∀ resp ∈ (handle st0 reqNotif).2, resp.id = none :=
  notifications_are_answered st0 reqNotif rfl

theorem mapSet_fresh {V : Type} (m : List (String × V)) (k : String) (v : V)
    (h : ∀ kv ∈ m, kv.1 ≠ k) : mapSet m k v = m ++ [(k, v)] := by
  unfold mapSet
  rw [if_neg]
  simp only [List.any_eq_true, decide_eq_true_eq, not_exists]
  intro kv hkv
  exact h kv hkv.1 hkv.2

theorem mapSet_replace {V : Type} (m : List (String × V)) (k : String) (v1 v2 : V)
    (h : ∀ kv ∈ m, kv.1 ≠ k) :
    mapSet (m ++ [(k, v1)]) k v2 = m ++ [(k, v2)] := by
  unfold mapSet
  rw [if_pos]
  · rw [List.map_append]
    congr 1
    · have hc : ∀ kv ∈ m, (if kv.1 = k then (k, v2) else kv) = kv :=
        fun kv hm => if_neg (h kv hm)
      rw [List.map_congr_left hc]
      simp only [List.map_id_fun', id_eq]
    · simp
  · simp [List.any_append]

theorem mapGet_last {V : Type} (m : List (String × V)) (k : String) (v : V)
    (h : ∀ kv ∈ m, kv.1 ≠ k) : mapGet (m ++ [(k, v)]) k = some v := by
  unfold mapGet
  rw [List.find?_append]
  have hnone : m.find? (fun kv => kv.1 = k) = none := by
    rw [List.find?_eq_none]
    intro kv hkv
    simp only [decide_eq_true_eq]
    exact h kv hkv
  rw [hnone]
  simp

def rdOne : ResourceDef := ⟨"mem://", some "one", none, none⟩

def rdTwo : ResourceDef := ⟨"mem://", some "two", none, none⟩

def rrOne : ResourceReader := fun u => .ok ⟨u, none, some "one"⟩

def rrTwo : ResourceReader := fun u => .ok ⟨u, none, some "two"⟩

/-- Counterexample for C5: registering a second resource under an
existing URI does not replace the first definition: list() keeps both
(the registry pushes every definition onto its array). -/
theorem registry_overwrite_counterexample :
    ((ResourceRegistry.empty.register rdOne rrOne).register rdTwo rrTwo).list =
      [rdOne, rdTwo] ∧
    rdOne ≠ rdTwo := by
  refine ⟨rfl, fun h => ?_⟩
  have := congrArg ResourceDef.name h
  simp [rdOne, rdTwo] at this

/-- C5 as amended: the tool and prompt registries overwrite on same-key
registration (one entry, the later definition, the later
handler/template); the resource registry overwrites only its reader map
while list() accumulates both definitions. -/
theorem registry_overwrite_semantics :
    (∀ (reg : ToolRegistry) (d1 d2 : ToolDef) (h1 h2 : ToolHandler)
        (args : Option Json),
        d2.name = d1.name →
        (∀ kv ∈ reg.tools, kv.1 ≠ d1.name) →
        ((reg.register d1 h1).register d2 h2).tools =
          reg.tools ++ [(d1.name, (d2, h2))] ∧
        ((reg.register d1 h1).register d2 h2).call d1.name args = h2 args) ∧
    (∀ (reg : PromptRegistry) (d1 d2 : PromptDef) (t1 t2 : String) (vars : PVars),
        d2.name = d1.name →
        (∀ kv ∈ reg.prompts, kv.1 ≠ d1.name) →
        ((reg.register d1 t1).register d2 t2).prompts =
          reg.prompts ++ [(d1.name, (d2, t2))] ∧
        ((reg.register d1 t1).register d2 t2).get d1.name vars =
          .ok ⟨d1.name, renderTemplate t2 vars⟩) ∧
    (∀ (reg : ResourceRegistry) (d1 d2 : ResourceDef) (r1 r2 : ResourceReader),
        d2.uri = d1.uri →
        (∀ kv ∈ reg.readers, kv.1 ≠ d1.uri) →
        (∀ d ∈ reg.resources, d.uri ≠ d1.uri) →
        ((reg.register d1 r1).register d2 r2).list = reg.list ++ [d1, d2] ∧
        ((reg.register d1 r1).register d2 r2).read d1.uri = r2 d1.uri) := by
  refine ⟨?_, ?_, ?_⟩
  · intro reg d1 d2 h1 h2 args hname hfresh
    have e2 : ((reg.register d1 h1).register d2 h2).tools =
        reg.tools ++ [(d1.name, (d2, h2))] := by
      show mapSet (mapSet reg.tools d1.name (d1, h1)) d2.name (d2, h2) = _
      rw [mapSet_fresh reg.tools d1.name (d1, h1) hfresh, hname]
      exact mapSet_replace reg.tools d1.name (d1, h1) (d2, h2) hfresh
    refine ⟨e2, ?_⟩
    have e3 : mapGet ((reg.register d1 h1).register d2 h2).tools d1.name =
        some (d2, h2) := by
      rw [e2]
      exact mapGet_last reg.tools d1.name (d2, h2) hfresh
    unfold ToolRegistry.call
    rw [e3]
  · intro reg d1 d2 t1 t2 vars hname hfresh
    have e2 : ((reg.register d1 t1).register d2 t2).prompts =
        reg.prompts ++ [(d1.name, (d2, t2))] := by
      show mapSet (mapSet reg.prompts d1.name (d1, t1)) d2.name (d2, t2) = _
      rw [mapSet_fresh reg.prompts d1.name (d1, t1) hfresh, hname]
      exact mapSet_replace reg.prompts d1.name (d1, t1) (d2, t2) hfresh
    refine ⟨e2, ?_⟩
    have e3 : mapGet ((reg.register d1 t1).register d2 t2).prompts d1.name =
        some (d2, t2) := by
      rw [e2]
      exact mapGet_last reg.prompts d1.name (d2, t2) hfresh
    unfold PromptRegistry.get
    rw [e3]
  · intro reg d1 d2 r1 r2 huri hfreshR hfreshD
    have el : ((reg.register d1 r1).register d2 r2).resources =
        reg.resources ++ [d1, d2] := by
      show (reg.resources ++ [d1]) ++ [d2] = _
      simp
    have er : ((reg.register d1 r1).register d2 r2).readers =
        reg.readers ++ [(d1.uri, r2)] := by
      show mapSet (mapSet reg.readers d1.uri r1) d2.uri r2 = _
      rw [mapSet_fresh reg.readers d1.uri r1 hfreshR, huri]
      exact mapSet_replace reg.readers d1.uri r1 r2 hfreshR
    refine ⟨el, ?_⟩
    have hf : (reg.resources ++ [d1, d2]).find? (fun r => r.uri = d1.uri) = some d1 := by
      rw [List.find?_append]
      have hn : reg.resources.find? (fun r => r.uri = d1.uri) = none := by
        rw [List.find?_eq_none]
        intro d hd
        simpa using hfreshD d hd
      rw [hn]
      simp [List.find?]
    have eg : mapGet ((reg.register d1 r1).register d2 r2).readers d1.uri = some r2 := by
      rw [er]
      exact mapGet_last reg.readers d1.uri r2 hfreshR
    unfold ResourceRegistry.read
    rw [el]
    dsimp only
    rw [hf]
    dsimp only
    rw [eg]

/-- Witness for the amended C5 at two concrete same-URI resource
registrations on the empty registry. -/
theorem registry_overwrite_semantics_witness :
    ((ResourceRegistry.empty.register rdOne rrOne).register rdTwo rrTwo).list =
      ResourceRegistry.empty.list ++ [rdOne, rdTwo] ∧
    ((ResourceRegistry.empty.register rdOne rrOne).register rdTwo rrTwo).read
      rdOne.uri = rrTwo rdOne.uri :=
  registry_overwrite_semantics.2.2 ResourceRegistry.empty rdOne rdTwo rrOne rrTwo
    rfl (fun kv h => absurd h (List.not_mem_nil kv))
    (fun d h => absurd h (List.not_mem_nil d))

/-- C6: a tools/call request for an unregistered name is answered with a
successful result (not an error envelope) whose isError flag is set and
whose single text part says Tool not found and names the tool. -/
theorem unknown_tool_graceful (st : SState) (req : Request)
    (hm : req.method = "tools/call")
    (hn : mapGet st.tools.tools (jsToStringOpt (objGet (paramsObj req) "name")) = none) :
    (handle st req).2 =
      [okResp req.id (toolResultToJson
        ⟨[⟨"Tool not found: " ++ jsToStringOpt (objGet (paramsObj req) "name")⟩],
          some true⟩)] := by
  unfold handle
  repeat' split <;> simp_all [ToolRegistry.call, okResp]

/-- The concrete unknown-tool request of the test suite. -/
def reqNope : Request :=
  ⟨some (.inl 1), "tools/call", some (.obj [("name", .str "nope"), ("arguments", .obj [])])⟩

/-- Witness for C6 at the concrete request calling the unknown tool
nope on the fresh registries. -/
theorem unknown_tool_graceful_witness :
    (handle st0 reqNope).2 =
      [okResp (some (.inl 1)) (toolResultToJson
        ⟨[⟨"Tool not found: " ++ jsToStringOpt (objGet (paramsObj reqNope) "name")⟩],
          some true⟩)] :=
  unknown_tool_graceful st0 reqNope rfl rfl

/-! ## Malformed Content-Length and truncated bodies -/

/-- The decomposition of the template that the placeholder scan
produces: literal characters and placeholder occurrences. -/
inductive Tok where
  | lit (c : Char)
  | var (k : String)

def tokRender (vars : PVars) : Tok → List Char
  | .lit c => [c]
  | .var k => (varValue vars k).data

def tokOrig : Tok → List Char
  | .lit c => [c]
  | .var k => lbrace :: lbrace :: (k.data ++ rbrace :: rbrace :: [])

def tokenizeCore : Nat → List Char → List Tok
  | 0, _ => []
  | _ + 1, [] => []
  | fuel + 1, c :: rest =>
      match tryVar (c :: rest) with
      | some (k, rest2) => .var k :: tokenizeCore fuel rest2
      | none => .lit c :: tokenizeCore fuel rest

def tokenize (tpl : String) : List Tok := tokenizeCore tpl.data.length tpl.data

theorem tryVar_eq_some {xs : List Char} {k : String} {rest : List Char}
    (h : tryVar xs = some (k, rest)) :
    xs = lbrace :: lbrace :: (k.data ++ rbrace :: rbrace :: rest) ∧
    k.data ≠ [] ∧
    xs.length = k.data.length + 4 + rest.length := by
  match xs with
  | [] => simp [tryVar] at h
  | [c1] => simp [tryVar] at h
  | c1 :: c2 :: ys =>
    simp only [tryVar] at h
    split at h
    · rename_i hbr
      obtain ⟨hb1, hb2⟩ := hbr
      subst hb1; subst hb2
      split at h
      · exact absurd h (by simp)
      · rename_i w zs hw heq2
        split at h
        · rename_i hz
          obtain ⟨hz1, hz2⟩ := hz
          simp only [Option.some.injEq, Prod.mk.injEq] at h
          obtain ⟨hk, hrest⟩ := h
          subst hz1; subst hz2; subst hrest
          subst hk
          have hys : List.takeWhile isWordChar ys ++ List.dropWhile isWordChar ys = ys :=
            List.takeWhile_append_dropWhile isWordChar ys
          rw [hw] at hys
          refine ⟨?_, ?_, ?_⟩
          · show lbrace :: lbrace :: ys = lbrace :: lbrace ::
              (List.takeWhile isWordChar ys ++ rbrace :: rbrace :: zs)
            rw [hys]
          · show List.takeWhile isWordChar ys ≠ []
            intro hempty
            exact heq2 hempty
          · show (lbrace :: lbrace :: ys).length =
              (List.takeWhile isWordChar ys).length + 4 + zs.length
            have hlen := congrArg List.length hys
            simp only [List.length_append, List.length_cons] at hlen ⊢
            omega
        · exact absurd h (by simp)
      · exact absurd h (by simp)
    · exact absurd h (by simp)

theorem renderCore_succ_cons (vars : PVars) (fuel : Nat) (c : Char) (rest : List Char) :
    renderCore vars (fuel + 1) (c :: rest) =
      match tryVar (c :: rest) with
      | some (k, rest2) => (varValue vars k).data ++ renderCore vars fuel rest2
      | none => c :: renderCore vars fuel rest := rfl

theorem tokenizeCore_succ_cons (fuel : Nat) (c : Char) (rest : List Char) :
    tokenizeCore (fuel + 1) (c :: rest) =
      match tryVar (c :: rest) with
      | some (k, rest2) => Tok.var k :: tokenizeCore fuel rest2
      | none => Tok.lit c :: tokenizeCore fuel rest := rfl

/-- The scan-and-replace equals rendering the token decomposition. -/
theorem renderCore_tokens (vars : PVars) :
    ∀ (fuel : Nat) (cs : List Char), cs.length ≤ fuel →
      renderCore vars fuel cs =
        ((tokenizeCore fuel cs).map (tokRender vars)).flatten := by
  intro fuel
  induction fuel with
  | zero =>
      intro cs h
      have : cs = [] := List.eq_nil_of_length_eq_zero (by omega)
      subst this
      rfl
  | succ fuel ih =>
      intro cs h
      cases cs with
      | nil => rfl
      | cons c rest =>
          rw [renderCore_succ_cons, tokenizeCore_succ_cons]
          cases htv : tryVar (c :: rest) with
          | some kr =>
              obtain ⟨k, rest2⟩ := kr
              obtain ⟨hxs, hne, hlen⟩ := tryVar_eq_some htv
              dsimp only
              have hk1 : 1 ≤ k.data.length := by
                cases hkd : k.data with
                | nil => exact absurd hkd hne
                | cons a as => simp
              have h2 : rest2.length ≤ fuel := by
                simp only [List.length_cons] at hlen h
                omega
              rw [ih rest2 h2]
              simp [tokRender]
          | none =>
              dsimp only
              have h2 : rest.length ≤ fuel := by
                simp only [List.length_cons] at h
                omega
              rw [ih rest h2]
              simp [tokRender]

/-- The token decomposition reconstructs the template exactly: every
placeholder occurrence is consumed as written and nothing else is
touched. -/
theorem tokens_orig :
    ∀ (fuel : Nat) (cs : List Char), cs.length ≤ fuel →
      ((tokenizeCore fuel cs).map tokOrig).flatten = cs := by
  intro fuel
  induction fuel with
  | zero =>
      intro cs h
      have : cs = [] := List.eq_nil_of_length_eq_zero (by omega)
      subst this
      rfl
  | succ fuel ih =>
      intro cs h
      cases cs with
      | nil => rfl
      | cons c rest =>
          rw [tokenizeCore_succ_cons]
          cases htv : tryVar (c :: rest) with
          | some kr =>
              obtain ⟨k, rest2⟩ := kr
              obtain ⟨hxs, hne, hlen⟩ := tryVar_eq_some htv
              dsimp only
              have h2 : rest2.length ≤ fuel := by
                have hk1 : 1 ≤ k.data.length := by
                  cases hkd : k.data with
                  | nil => exact absurd hkd hne
                  | cons a as => simp
                simp only [List.length_cons] at hlen h
                omega
              simp only [List.map_cons, List.flatten_cons, ih rest2 h2]
              rw [hxs]
              simp [tokOrig]
          | none =>
              dsimp only
              have h2 : rest.length ≤ fuel := by
                simp only [List.length_cons] at h
                omega
              simp only [List.map_cons, List.flatten_cons, ih rest h2]
              simp [tokOrig]

/-- C9: prompts/get renders the registered template by replacing every
placeholder occurrence with the string coercion of the variable value
(empty when absent) and changing nothing else: the rendering equals the
token decomposition with placeholders substituted, and the token
decomposition reconstructs the template literally. -/
theorem prompt_render_characterization
    (reg : PromptRegistry) (name : String) (d : PromptDef) (tpl : String)
    (vars : PVars)
    (h : mapGet reg.prompts name = some (d, tpl)) :
    reg.get name vars = .ok ⟨name, renderTemplate tpl vars⟩ ∧
    (renderTemplate tpl vars).data = ((tokenize tpl).map (tokRender vars)).flatten ∧
    ((tokenize tpl).map tokOrig).flatten = tpl.data := by
  refine ⟨?_, ?_, ?_⟩
  · unfold PromptRegistry.get
    rw [h]
  · unfold renderTemplate tokenize
    exact renderCore_tokens vars tpl.data.length tpl.data le_rfl
  · exact tokens_orig tpl.data.length tpl.data le_rfl

def promptGreet : PromptDef := ⟨"greet", none, none⟩

def tplGreet : String := "Hello \x7b\x7bname\x7d\x7d!"

def pregGreet : PromptRegistry := PromptRegistry.empty.register promptGreet tplGreet

def varsAda : PVars := fun k => if k = "name" then some (.s "Ada") else none

/-- Witness for C9 at a concrete one-placeholder template. -/
theorem prompt_render_characterization_witness :
    (pregGreet.get "greet" varsAda = .ok ⟨"greet", renderTemplate tplGreet varsAda⟩ ∧
      (renderTemplate tplGreet varsAda).data =
        ((tokenize tplGreet).map (tokRender varsAda)).flatten ∧
      ((tokenize tplGreet).map tokOrig).flatten = tplGreet.data) ∧
    renderTemplate tplGreet varsAda = "Hello Ada!" :=
  ⟨prompt_render_characterization pregGreet "greet" promptGreet tplGreet varsAda rfl,
    rfl⟩

end EvaMCP
